import Mathlib

/-!
Shallow embedding of the validator library in `app/validators.py` and
verification of the spec's claims about it.

Conventions of the embedding:
* Python exceptions become values of `PyErr` inside `Except PyErr α`.
  `BaseValidator.raise_validation_error(msg)` raises
  `HTTPException(status_code=422, detail={"error": msg})`; we model it as
  `PyErr.httpException 422 msg` (the one-key `{"error": ...}` wrapper is
  collapsed to its message string).  Date/boolean/password validators raise
  `HTTPException(400, detail=msg)` directly, modelled the same way.
* Python-level runtime errors are modelled explicitly:
  `PyErr.attributeError n` is the `AttributeError` raised when attribute `n`
  is looked up but not defined on the object, and `PyErr.valueError m` /
  `PyErr.typeError m` model `ValueError` / `TypeError`.
* Strings are Lean `String`s; Python `len` on a `str` counts code points,
  which agrees with `String.length`.  Regex character classes `\d`, `\w`,
  `\s`, `[a-z]` … are modelled over their ASCII meaning.
* Python's `re` `$` anchor matches at the end of the string or just before a
  single trailing newline; `pyEndDollar` models this.  `re.fullmatch` has no
  such allowance.
-/

namespace PyVal

/-- Errors a validator call can terminate with (see module docstring). -/
inductive PyErr where
  | httpException (status : Nat) (detail : String)
  | attributeError (missingAttribute : String)
  | valueError (msg : String)
  | typeError (msg : String)
  deriving DecidableEq, Repr

instance {ε α : Type} [DecidableEq ε] [DecidableEq α] : DecidableEq (Except ε α) := fun
  | .ok a, .ok b =>
      if h : a = b then .isTrue (by rw [h]) else .isFalse (by simp [h])
  | .error a, .error b =>
      if h : a = b then .isTrue (by rw [h]) else .isFalse (by simp [h])
  | .ok _, .error _ => .isFalse (by simp)
  | .error _, .ok _ => .isFalse (by simp)

/-- Python truthiness of an optional integer bound: `None` and `0` are falsy.
Models `if self.min_length and ...` style guards. -/
def optTruthy : Option Nat → Bool
  | none => false
  | some n => n != 0

/-- Python `re`: a pattern ending in `$` accepts the position at the very end
of the input or just before one final newline. -/
def pyEndDollar : List Char → Bool
  | [] => true
  | [c] => c = '\n'
  | _ => false

/-- `html.escape(s)` (with the default `quote=True`) replaces `&`, `<`, `>`,
`"` and the apostrophe by their HTML entities.  Because `&` is replaced
first and no later replacement produces a character that an earlier pass
would rewrite, the sequential `str.replace` calls of `html.escape` act
independently on each character of the original string, which is how we
model it. -/
def htmlEscapeChar (c : Char) : List Char :=
  if c = '&' then "&amp;".toList
  else if c = '<' then "&lt;".toList
  else if c = '>' then "&gt;".toList
  else if c = '"' then "&quot;".toList
  else if c = Char.ofNat 39 then "&#x27;".toList
  else [c]

/-- `html.escape` on a whole string. -/
def htmlEscape (s : String) : String :=
  String.mk (s.toList.flatMap htmlEscapeChar)

/-!  ## MinMaxLengthValidator (validators.py lines 95-114) -/

/-- `MinMaxLengthValidator(min_length, max_length).validate(value)`.
The source first rebinds `value = html.escape(str(value))`; on a string
input `str` is the identity, and the subsequent
`isinstance(value, str)` guard can then never fire (so the `NotAString`
branch is dead for the string inputs modelled here).  The two length checks
use Python truthiness on the bounds (`if self.min_length and ...`). -/
def MinMaxLengthValidator.validate (min_length max_length : Option Nat)
    (value : String) : Except PyErr Bool :=
  let v := htmlEscape value
  if optTruthy min_length && decide (v.length < min_length.getD 0) then
    .error (.httpException 422
      ("String must be at least " ++ toString (min_length.getD 0) ++ " characters long."))
  else if optTruthy max_length && decide (v.length > max_length.getD 0) then
    .error (.httpException 422
      ("String must be at most " ++ toString (max_length.getD 0) ++ " characters long."))
  else
    .ok true

/-!  ## AlphanumericValidator (validators.py lines 117-128) -/

/-- `re.match(r"^[a-zA-Z0-9]+$", s)` as a Boolean: a nonempty run of ASCII
alphanumerics covering the whole string up to the `$` anchor (which also
accepts one trailing newline).  The regex is deterministic here: shortening
the greedy `+` run leaves an alphanumeric character where `$` must hold, so
only the maximal run can succeed. -/
def alnumRegexMatch (s : String) : Bool :=
  let cs := s.toList
  let run := cs.takeWhile Char.isAlphanum
  !run.isEmpty && pyEndDollar (cs.drop run.length)

/-- `AlphanumericValidator().validate(value)`: `if not value` (empty-string
falsiness) guards first, then the input is HTML-escaped and matched against
`^[a-zA-Z0-9]+$`. -/
def AlphanumericValidator.validate (value : String) : Except PyErr Bool :=
  if value = "" then
    .error (.httpException 422 "Textfield cannot be empty.")
  else
    let v := htmlEscape value
    if alnumRegexMatch v then .ok true
    else .error (.httpException 422 "Value must be alphanumeric (letters and numbers only).")

/-!  ## DecimalValidator (validators.py lines 75-92) -/

/-- `re.match(regex, s)` for `regex = r"^-?\d+(\.\d{1,cap})?$"` as a Boolean.
The regex is deterministic: `-?` is forced by the first character, the
greedy `\d+` and `\d{1,cap}` runs are forced maximal because shortening
them leaves a digit where a non-digit (`.` or the `$` anchor) is required,
and skipping the optional fraction group fails exactly when entering it
fails.  `$` accepts one trailing newline (`pyEndDollar`). -/
def decMatchCore (cap : Nat) (cs : List Char) : Bool :=
  let intPart := cs.takeWhile Char.isDigit
  let rest := cs.dropWhile Char.isDigit
  !intPart.isEmpty &&
    match rest with
    | '.' :: rest2 =>
        let frac := rest2.takeWhile Char.isDigit
        !frac.isEmpty && decide (frac.length ≤ cap) && pyEndDollar (rest2.dropWhile Char.isDigit)
    | r => pyEndDollar r

/-- The whole pattern `^-?\d+(\.\d{1,cap})?$`: the optional leading minus,
then `decMatchCore`. -/
def decimalRegexMatch (cap : Nat) (s : String) : Bool :=
  match s.toList with
  | '-' :: rest => decMatchCore cap rest
  | cs => decMatchCore cap cs

/-- `DecimalValidator(max_decimal_places).validate(value)`: the input is
HTML-escaped, then matched against
`^-?\d+(\.\d{1,N})?$` where `N` is `max_decimal_places` if that is truthy
(not `None` and nonzero) and the literal `10` otherwise. -/
def DecimalValidator.validate (max_decimal_places : Option Nat)
    (value : String) : Except PyErr Bool :=
  let v := htmlEscape value
  let cap := if optTruthy max_decimal_places then max_decimal_places.getD 0 else 10
  if decimalRegexMatch cap v then .ok true
  else .error (.httpException 422 "Value must be a valid decimal number.")

/-- Formalisation of the *spec's words* for the decimal claim (not of the
source), at the character-list level: an optionally-minus-signed
integer-or-decimal numeral whose fractional part, when present, has
between 1 and `cap` digits — and nothing else. -/
def SpecDecimalL (cap : Nat) (l : List Char) : Prop :=
  ∃ sign intDs frac, l = sign ++ intDs ++ frac
    ∧ (sign = [] ∨ sign = ['-'])
    ∧ intDs ≠ [] ∧ (∀ c ∈ intDs, c.isDigit)
    ∧ (frac = [] ∨ ∃ fds, frac = '.' :: fds ∧ fds ≠ []
        ∧ (∀ c ∈ fds, c.isDigit) ∧ fds.length ≤ cap)

/-- The spec's decimal pattern, on strings. -/
def SpecDecimal (cap : Nat) (s : String) : Prop := SpecDecimalL cap s.toList

/-- The unsigned body of `SpecDecimalL` (helper for relating it to the
source's regex). -/
def SpecBodyL (cap : Nat) (l : List Char) : Prop :=
  ∃ intDs frac, l = intDs ++ frac ∧ intDs ≠ [] ∧ (∀ c ∈ intDs, c.isDigit = true)
    ∧ (frac = [] ∨ ∃ fds, frac = '.' :: fds ∧ fds ≠ []
        ∧ (∀ c ∈ fds, c.isDigit = true) ∧ fds.length ≤ cap)

/-- The characters `html.escape` rewrites. -/
def isHtmlSpecial (c : Char) : Bool :=
  c = '&' || c = '<' || c = '>' || c = '"' || c = Char.ofNat 39

/-- Removes a single trailing newline from a character list, if present
(the extra slack that the Python `$` anchor grants). -/
def stripNlL (l : List Char) : List Char :=
  match l.getLast? with
  | some '\n' => l.dropLast
  | _ => l

/-- Removes a single trailing newline from a string, if present. -/
def stripTrailingNl (s : String) : String :=
  String.mk (stripNlL s.toList)

/-!  ## PasswordValidator (validators.py lines 478-545) -/

/-- The fixed special-character set of
`re.search(r"[!@#$%^&*(),.?\":{}|<>]", ...)`. -/
def passwordSpecialChars : List Char :=
  ['!', '@', '#', '$', '%', '^', '&', '*', '(', ')', ',', '.', '?', '"',
   ':', Char.ofNat 123, Char.ofNat 125, '|', '<', '>']

/-- `PasswordValidator(password).validate()`: five checks in fixed order,
each raising on its first failure, returning the original password
unchanged when they all pass. -/
def PasswordValidator.validate (password : String) : Except PyErr String :=
  if password.length < 8 then
    .error (.httpException 400 "Password must be at least 8 characters long.")
  else if !password.toList.any Char.isDigit then
    .error (.httpException 400 "Password must include at least one number.")
  else if !password.toList.any Char.isLower then
    .error (.httpException 400 "Password must include at least one lowercase letter.")
  else if !password.toList.any Char.isUpper then
    .error (.httpException 400 "Password must include at least one uppercase letter.")
  else if !password.toList.any (passwordSpecialChars.contains ·) then
    .error (.httpException 400 "Password must include at least one special character.")
  else
    .ok password

/-!  ## ZipcodeValidator (validators.py lines 226-252) -/

/-- `re.fullmatch(r"^\d{5}(-\d{4})?$", s)`: exactly five ASCII digits,
optionally followed by a hyphen and exactly four digits.  `fullmatch`
requires the match to span the whole string, so there is no trailing
newline allowance here. -/
def zipRegexFullmatch (s : String) : Bool :=
  match s.toList with
  | [a, b, c, d, e] => [a, b, c, d, e].all Char.isDigit
  | [a, b, c, d, e, h, f, g, i, j] =>
      [a, b, c, d, e].all Char.isDigit && h = '-' && [f, g, i, j].all Char.isDigit
  | _ => false

/-- `ZipcodeValidator(min_length=5, max_length=10).validate(zipcode)`:
empty-string guard, HTML escape, then the length check of
`MinMaxLengthValidator` applied to the already-escaped string (which
escapes its argument a second time), then the ZIP/ZIP+4 regex. -/
def ZipcodeValidator.validate (min_length max_length : Option Nat)
    (zipcode : String) : Except PyErr String :=
  if zipcode = "" then
    .error (.httpException 422 "Zip code cannot be empty.")
  else
    let z := htmlEscape zipcode
    match MinMaxLengthValidator.validate min_length max_length z with
    | .error e => .error e
    | .ok _ =>
      if zipRegexFullmatch z then .ok "Valid zip code."
      else .error (.httpException 422 "Invalid zip code format. Must be 5 digits or ZIP+4 format.")

/-!  ## EmailValidator (validators.py lines 182-224) -/

/-- `s.split('@', 1)` followed by a two-name unpacking: `some (u, d)` when
an `@` exists (split at the first one), `none` when the unpacking would
raise `ValueError` because the split produced only one part. -/
def splitAtFirstAt (s : String) : Option (String × String) :=
  let cs := s.toList
  if '@' ∈ cs then
    some (String.mk (cs.takeWhile (· ≠ '@')), String.mk ((cs.dropWhile (· ≠ '@')).drop 1))
  else
    none

/-- Character class `[a-z0-9_.+-]` under `re.IGNORECASE`. -/
def emailLocalChar (c : Char) : Bool :=
  c.isAlphanum || c = '_' || c = '.' || c = '+' || c = '-'

/-- Character class `[a-z0-9-]` under `re.IGNORECASE`. -/
def emailDomChar (c : Char) : Bool :=
  c.isAlphanum || c = '-'

/-- Character class `[a-z0-9-.]` under `re.IGNORECASE`. -/
def emailDomDotChar (c : Char) : Bool :=
  c.isAlphanum || c = '-' || c = '.'

/-- `re.match(r"^[a-z0-9_.+-]+@[a-z0-9-]+\.[a-z0-9-.]+$", s, re.IGNORECASE)`
as a Boolean.  The pattern is deterministic: `@` is in no class so the
local run is forced to stop at the first `@`; `.` is not in `[a-z0-9-]` so
that run stops at the first dot of the domain; the final greedy run is
forced maximal because shortening it leaves a class character where `$`
must hold.  `$` accepts one trailing newline. -/
def emailRegexMatch (s : String) : Bool :=
  let cs := s.toList
  let localRun := cs.takeWhile emailLocalChar
  !localRun.isEmpty &&
    match cs.drop localRun.length with
    | '@' :: domRest =>
        let domRun := domRest.takeWhile emailDomChar
        !domRun.isEmpty &&
          match domRest.drop domRun.length with
          | '.' :: tailRest =>
              let tailRun := tailRest.takeWhile emailDomDotChar
              !tailRun.isEmpty && pyEndDollar (tailRest.drop tailRun.length)
          | _ => false
    | _ => false

/-- `EmailValidator(min_length=5, max_length=254).validate(emailid)`.
The DNS MX lookup (`dns.resolver.resolve(domain, 'MX')`) is an external
collaborator and is passed in as `resolveMX`; the source turns its
`NoAnswer`/`NXDOMAIN` outcomes into a validation error.  Note the order of
the source: escape, the inherited length check (which escapes a second
time), the (dead, post-length-check) empty guard, then
`username, domain = emailid.split('@', 1)` — which raises `ValueError`
when the string contains no `@`. -/
def EmailValidator.validate (resolveMX : String → Bool)
    (min_length max_length : Option Nat) (emailid : String) : Except PyErr Bool :=
  let e := htmlEscape emailid
  match MinMaxLengthValidator.validate min_length max_length e with
  | .error err => .error err
  | .ok _ =>
    if e = "" then
      .error (.httpException 422 "Email ID cannot be empty.")
    else
      match splitAtFirstAt e with
      | none => .error (.valueError "not enough values to unpack (expected 2, got 1)")
      | some (username, domain) =>
        if username.length < 3 then
          .error (.httpException 422 "Username must be at least 3 characters long.")
        else if e.toList.any Char.isUpper then
          .error (.httpException 422 "Email ID must not contain uppercase letters.")
        else if !emailRegexMatch e then
          .error (.httpException 422 "Invalid email ID format.")
        else if !resolveMX domain then
          .error (.httpException 422
            ("Invalid domain in email: " ++ domain ++ " does not have MX records."))
        else
          .ok true

/-!  ## FileValidator (validators.py lines 283-335) -/

/-- The state of an `UploadFile` as the validator sees it: a filename and a
seekable byte stream of `size` bytes whose read cursor sits at `pos`.
`file.file.read()` returns the `size - pos` remaining bytes and leaves the
cursor at the end; `file.file.seek(0)` rewinds it. -/
structure PyFile where
  filename : String
  size : Nat
  pos : Nat
  deriving DecidableEq, Repr

/-- `file.file.read()`: number of bytes obtained, and the file afterwards. -/
def PyFile.read (f : PyFile) : Nat × PyFile :=
  (f.size - f.pos, { f with pos := f.size })

/-- `file.file.seek(0)`. -/
def PyFile.seek0 (f : PyFile) : PyFile :=
  { f with pos := 0 }

/-- `FileValidator(allowed_extensions, max_file_size_mb)`; the constructor
lower-cases the allowed extensions. -/
structure FileValidator where
  allowed_extensions : List String
  max_file_size_mb : Nat
  deriving Repr

/-- `str.lower` over ASCII. -/
def pyLower (s : String) : String :=
  String.mk (s.toList.map Char.toLower)

/-- `re.match(r'^[\w_]+\.[a-zA-Z0-9]+$', file_name)` as a Boolean.
`\w` is modelled as ASCII `[a-zA-Z0-9_]`.  The pattern is deterministic:
`.` is not a word character, so the first run must stop exactly at the
(unique possible) dot, and the alphanumeric run after it is forced maximal
by the `$` anchor, which accepts one trailing newline. -/
def fileNameRegexMatch (file_name : String) : Bool :=
  let cs := file_name.toList
  let stem := cs.takeWhile (fun c => c.isAlphanum || c = '_')
  !stem.isEmpty &&
    match cs.drop stem.length with
    | '.' :: rest =>
        let ext := rest.takeWhile Char.isAlphanum
        !ext.isEmpty && pyEndDollar (rest.drop ext.length)
    | _ => false

/-- `os.path.splitext(p)[1]` for a plain file name (no directory
separators): the suffix starting at the last dot, except that a name
consisting of leading dots only has no extension. -/
def splitextExt (p : String) : String :=
  let cs := p.toList
  let revCs := cs.reverse
  let afterRev := revCs.takeWhile (· ≠ '.')
  if afterRev.length = revCs.length then ""          -- no dot at all
  else
    let stem := cs.take (cs.length - afterRev.length - 1)
    if stem.all (· = '.') then ""                     -- only leading dots
    else String.mk (cs.drop (cs.length - afterRev.length - 1))

/-- Python `repr` of a list of strings, as interpolated into the
`Unsupported file type` f-string (e.g. `['.pdf', '.docx']`). -/
def pyStrListRepr (l : List String) : String :=
  let q := String.mk [Char.ofNat 39]
  "[" ++ String.intercalate ", " (l.map (fun s => q ++ s ++ q)) ++ "]"

/-- `FileValidator.validate_file_name` (lines 307-314). -/
def FileValidator.validate_file_name (_v : FileValidator) (file_name : String) :
    Except PyErr Unit :=
  if fileNameRegexMatch file_name then .ok ()
  else .error (.httpException 422
    "File name should not contain spaces or special characters other than underscores.")

/-- `FileValidator.validate_file_type` (lines 316-324). -/
def FileValidator.validate_file_type (v : FileValidator) (file_name : String) :
    Except PyErr Unit :=
  let file_extension := pyLower (splitextExt file_name)
  if file_extension ∈ v.allowed_extensions then .ok ()
  else .error (.httpException 422
    ("Unsupported file type: " ++ file_extension ++ ". Allowed types: "
      ++ pyStrListRepr v.allowed_extensions))

/-- `FileValidator.validate_file_size` (lines 326-335): reads the whole
stream to measure it, raises `FileTooLarge` if it exceeds the configured
cap, and only *after* that check — i.e. never on the failure path — resets
the cursor with `file.file.seek(0)`. -/
def FileValidator.validate_file_size (v : FileValidator) (f : PyFile) :
    Except PyErr Unit × PyFile :=
  let (file_size, f1) := f.read
  if file_size > v.max_file_size_mb * 1024 * 1024 then
    (.error (.httpException 422
      ("File size exceeds " ++ toString v.max_file_size_mb ++ " MB limit.")), f1)
  else
    (.ok (), f1.seek0)

/-- `FileValidator.validate` (lines 299-305): name, type, then size; the
first two touch only the filename, not the stream. -/
def FileValidator.validate (v : FileValidator) (f : PyFile) :
    Except PyErr Unit × PyFile :=
  match v.validate_file_name f.filename with
  | .error e => (.error e, f)
  | .ok () =>
    match v.validate_file_type f.filename with
    | .error e => (.error e, f)
    | .ok () => v.validate_file_size f

/-!  ## `datetime.strptime` (as used by DateValidator, validators.py 355-454)

CPython's `_strptime` compiles a format string into a regex: each
whitespace run becomes `\s+`, other literal characters match themselves,
and the directives used by `DateValidator.supported_formats` become

  %Y ↦ `\d\d\d\d`          %m, %I ↦ `1[0-2]|0[1-9]|[1-9]`
  %d ↦ `3[01]|[12]\d|0[1-9]|[1-9]`
  %H ↦ `2[0-3]|[0-1]\d|\d`  %M ↦ `[0-5]\d|\d`   %S ↦ `6[0-1]|[0-5]\d|\d`
  %p ↦ `AM|PM`              %b, %B ↦ month names, longest first

compiled with `re.IGNORECASE` and matched with `match` plus an
"unconverted data remains" check, i.e. the whole input must be consumed.
After matching, the captured fields (with defaults year 1900, month 1,
day 1, time 0:0:0, and the 12-hour `%I`/`%p` adjustment) are passed to the
`datetime` constructor, which raises `ValueError` unless the date exists
in the proleptic Gregorian calendar and the time fields are in range.

For the token sequences produced by these format strings the regex needs
no backtracking, so the matcher below is deterministic, trying each
directive's alternatives in the regex's order:
* every numeric directive is followed by a non-digit token (a literal
  `-`/`/`/`:`, a whitespace run, a month-name or AM/PM directive, or the
  end of the pattern), so if a two-digit alternative matches, retrying a
  shorter alternative leaves a digit where that non-digit must match;
* a whitespace run is never followed by a token that can start with
  whitespace, so the greedy `\s+` consumption is forced maximal;
* no month name (or `AM`/`PM`) is a prefix of another, so at most one
  name alternative can apply at a given position.
(`_strptime`'s name lists also carry an empty-string alternative for `%b`
and `%B`; a match through it would set month index 0 and always be
rejected by the `datetime` constructor, so it is observationally inert and
omitted.) -/

/-- A parsed `datetime` value. -/
structure DateTime where
  year : Nat
  month : Nat
  day : Nat
  hour : Nat
  minute : Nat
  second : Nat
  deriving DecidableEq, Repr

/-- One token of a compiled `strptime` format. -/
inductive FmtTok where
  | lit (c : Char)
  | ws
  | dY | dm | dd | dH | dM | dS | dI | dp | db | dB
  deriving DecidableEq, Repr

/-- The directives `_strptime` knows that `supported_formats` uses. -/
def directiveTok : Char → Option FmtTok
  | 'Y' => some .dY
  | 'm' => some .dm
  | 'd' => some .dd
  | 'H' => some .dH
  | 'M' => some .dM
  | 'S' => some .dS
  | 'I' => some .dI
  | 'p' => some .dp
  | 'b' => some .db
  | 'B' => some .dB
  | _ => none

/-- Python `\s` over ASCII. -/
def isPySpace (c : Char) : Bool :=
  c = ' ' || c = '\t' || c = '\n' || c = '\r' || c = Char.ofNat 11 || c = Char.ofNat 12

/-- Compile a format string to tokens; whitespace runs collapse to a single
`ws` token (as `_strptime` rewrites them to one `\s+`). -/
def tokenizeFmt : List Char → Option (List FmtTok)
  | [] => some []
  | '%' :: rest =>
      match rest with
      | [] => none
      | c :: rest' => (directiveTok c).bind fun t => (tokenizeFmt rest').map (t :: ·)
  | c :: rest =>
      if isPySpace c then
        match tokenizeFmt rest with
        | some (FmtTok.ws :: ts) => some (.ws :: ts)
        | some ts => some (.ws :: ts)
        | none => none
      else
        (tokenizeFmt rest).map (FmtTok.lit c :: ·)

/-- Numeric value of an ASCII digit. -/
def digitVal (c : Char) : Nat := c.toNat - 48

/-- A two-character regex alternative `pq` over digits. -/
def alt2 (p q : Char → Bool) : List Char → Option (Nat × List Char)
  | a :: b :: rest => if p a && q b then some (digitVal a * 10 + digitVal b, rest) else none
  | _ => none

/-- A one-character regex alternative. -/
def alt1 (p : Char → Bool) : List Char → Option (Nat × List Char)
  | a :: rest => if p a then some (digitVal a, rest) else none
  | _ => none

/-- Character range test. -/
def chBetween (lo hi c : Char) : Bool := lo ≤ c && c ≤ hi

/-- `%Y`: exactly four digits. -/
def yAlt : List Char → Option (Nat × List Char)
  | a :: b :: c :: d :: rest =>
      if [a, b, c, d].all Char.isDigit then
        some (digitVal a * 1000 + digitVal b * 100 + digitVal c * 10 + digitVal d, rest)
      else none
  | _ => none

/-- The ordered alternative lists of the numeric directives. -/
def numAlts : FmtTok → List (List Char → Option (Nat × List Char))
  | .dY => [yAlt]
  | .dm => [alt2 (· = '1') (chBetween '0' '2'), alt2 (· = '0') (chBetween '1' '9'),
            alt1 (chBetween '1' '9')]
  | .dI => [alt2 (· = '1') (chBetween '0' '2'), alt2 (· = '0') (chBetween '1' '9'),
            alt1 (chBetween '1' '9')]
  | .dd => [alt2 (· = '3') (chBetween '0' '1'), alt2 (chBetween '1' '2') Char.isDigit,
            alt2 (· = '0') (chBetween '1' '9'), alt1 (chBetween '1' '9')]
  | .dH => [alt2 (· = '2') (chBetween '0' '3'), alt2 (chBetween '0' '1') Char.isDigit,
            alt1 Char.isDigit]
  | .dM => [alt2 (chBetween '0' '5') Char.isDigit, alt1 Char.isDigit]
  | .dS => [alt2 (· = '6') (chBetween '0' '1'), alt2 (chBetween '0' '5') Char.isDigit,
            alt1 Char.isDigit]
  | _ => []

/-- Case-insensitive removal of a (lower-case) name from the front of the
input (the whole `_strptime` regex carries `re.IGNORECASE`). -/
def stripNameCI (name : List Char) (cs : List Char) : Option (List Char) :=
  match name, cs with
  | [], rest => some rest
  | n :: ns, c :: rest => if c.toLower = n then stripNameCI ns rest else none
  | _ :: _, [] => none

/-- Abbreviated month names (`%b`), paired with their month numbers, in
`_strptime`'s alternation order (length-descending stable sort of
`calendar.month_abbr`; all have length 3, so original order). -/
def monthAbbrs : List (List Char × Nat) :=
  [("jan".toList, 1), ("feb".toList, 2), ("mar".toList, 3), ("apr".toList, 4),
   ("may".toList, 5), ("jun".toList, 6), ("jul".toList, 7), ("aug".toList, 8),
   ("sep".toList, 9), ("oct".toList, 10), ("nov".toList, 11), ("dec".toList, 12)]

/-- Full month names (`%B`) in `_strptime`'s alternation order
(length-descending stable sort of `calendar.month_name`). -/
def monthNames : List (List Char × Nat) :=
  [("september".toList, 9), ("february".toList, 2), ("november".toList, 11),
   ("december".toList, 12), ("january".toList, 1), ("october".toList, 10),
   ("august".toList, 8), ("march".toList, 3), ("april".toList, 4),
   ("june".toList, 6), ("july".toList, 7), ("may".toList, 5)]

/-- First name of the list that is a (case-insensitive) prefix of the
input. -/
def matchName (names : List (List Char × Nat)) (cs : List Char) :
    Option (Nat × List Char) :=
  names.findSome? fun (n, v) => (stripNameCI n cs).map fun rest => (v, rest)

/-- The captured fields of a match (`found_dict`). -/
structure PFields where
  Y : Option Nat := none
  m : Option Nat := none
  d : Option Nat := none
  H : Option Nat := none
  M : Option Nat := none
  S : Option Nat := none
  I : Option Nat := none
  p : Option Bool := none   -- `some true` = PM, `some false` = AM
  deriving Repr

/-- Store a numeric directive's captured value. -/
def PFields.setNum (f : PFields) : FmtTok → Nat → PFields
  | .dY, v => { f with Y := some v }
  | .dm, v => { f with m := some v }
  | .dd, v => { f with d := some v }
  | .dH, v => { f with H := some v }
  | .dM, v => { f with M := some v }
  | .dS, v => { f with S := some v }
  | .dI, v => { f with I := some v }
  | .db, v => { f with m := some v }
  | .dB, v => { f with m := some v }
  | _, _ => f

/-- Match a token sequence against the whole input (the regex match plus
the "unconverted data remains" check), collecting captured fields. -/
def matchToks : List FmtTok → List Char → PFields → Option PFields
  | [], cs, f => if cs.isEmpty then some f else none
  | .lit c :: ts, cs, f =>
      match cs with
      | x :: rest => if x = c then matchToks ts rest f else none
      | [] => none
  | .ws :: ts, cs, f =>
      let run := cs.takeWhile isPySpace
      if run.isEmpty then none else matchToks ts (cs.drop run.length) f
  | .dp :: ts, cs, f =>
      (match stripNameCI "am".toList cs with
       | some rest => matchToks ts rest { f with p := some false }
       | none =>
         match stripNameCI "pm".toList cs with
         | some rest => matchToks ts rest { f with p := some true }
         | none => none)
  | .db :: ts, cs, f =>
      (match matchName monthAbbrs cs with
       | some (v, rest) => matchToks ts rest (f.setNum .db v)
       | none => none)
  | .dB :: ts, cs, f =>
      (match matchName monthNames cs with
       | some (v, rest) => matchToks ts rest (f.setNum .dB v)
       | none => none)
  | t :: ts, cs, f =>
      match (numAlts t).findSome? (fun alt => alt cs) with
      | some (v, rest) => matchToks ts rest (f.setNum t v)
      | none => none

/-- Gregorian leap year. -/
def isLeapYear (y : Nat) : Bool :=
  (y % 4 = 0 && y % 100 != 0) || y % 400 = 0

/-- Days in a month of the proleptic Gregorian calendar. -/
def daysInMonth (y m : Nat) : Nat :=
  if m = 2 then (if isLeapYear y then 29 else 28)
  else if m = 4 || m = 6 || m = 9 || m = 11 then 30
  else 31

/-- The `datetime(year, month, day, hour, minute, second)` constructor:
`some` exactly when every field is in range (this is where Feb 30 or a
second of 60 is rejected). -/
def mkDatetime (y mo d h mi s : Nat) : Option DateTime :=
  if 1 ≤ y && y ≤ 9999 && 1 ≤ mo && mo ≤ 12 && 1 ≤ d && d ≤ daysInMonth y mo
      && h ≤ 23 && mi ≤ 59 && s ≤ 59 then
    some ⟨y, mo, d, h, mi, s⟩
  else none

/-- `datetime.strptime(data_string, format)`, with `none` for the
`ValueError` outcome.  Field assembly follows `_strptime`: defaults
1900-01-01 00:00:00; `%H` takes precedence in our formats (none of which
combine `%H` with `%I`); with `%I`, `PM` adds 12 except for 12 PM, and
12 AM (or a bare `%I` of 12) becomes hour 0. -/
def strptime (data_string format : String) : Option DateTime := do
  let toks ← tokenizeFmt format.toList
  let f ← matchToks toks data_string.toList {}
  let hour : Nat :=
    match f.H, f.I, f.p with
    | some h, _, _ => h
    | none, some i, some true => if i = 12 then 12 else i + 12
    | none, some i, _ => if i = 12 then 0 else i
    | none, none, _ => 0
  mkDatetime (f.Y.getD 1900) (f.m.getD 1) (f.d.getD 1) hour (f.M.getD 0) (f.S.getD 0)

/-!  ## DateValidator (validators.py lines 355-454) -/

/-- `DateValidator.supported_formats`, in source order. -/
def supported_formats : List String :=
  ["%Y-%m-%d",
   "%Y-%m-%d %H:%M",
   "%Y-%m-%d %H:%M:%S",
   "%d/%m/%Y",
   "%d/%m/%Y %H:%M",
   "%d/%m/%Y %H:%M:%S",
   "%m/%d/%Y",
   "%m/%d/%Y %H:%M",
   "%m/%d/%Y %H:%M:%S",
   "%Y-%m-%d %I:%M %p",
   "%Y-%m-%d %I:%M:%S %p",
   "%d/%m/%Y %I:%M %p",
   "%d/%m/%Y %I:%M:%S %p",
   "%m/%d/%Y %I:%M %p",
   "%m/%d/%Y %I:%M:%S %p",
   "%d %b %Y",
   "%d %B %Y",
   "%d %B %Y %H:%M",
   "%d %B %Y %H:%M:%S"]

/-- The `for fmt in self.supported_formats` loop of `determine_format`:
first format that `strptime` accepts. -/
def findFormat (date_string : String) : List String → Option String
  | [] => none
  | fmt :: rest =>
      if (strptime date_string fmt).isSome then some fmt
      else findFormat date_string rest

/-- `DateValidator.determine_format` (lines 389-404). -/
def DateValidator.determine_format (date_string : String) : Except PyErr String :=
  match findFormat date_string supported_formats with
  | some fmt => .ok fmt
  | none => .error (.httpException 400 "Unable to determine the format of the date.")

/-- `DateValidator.validate_calendar_date` (lines 406-416): re-parse with
the winning format. -/
def DateValidator.validate_calendar_date (date_string date_format : String) :
    Except PyErr DateTime :=
  match strptime date_string date_format with
  | some d => .ok d
  | none => .error (.httpException 400
      ("Invalid date or time. Ensure the input matches the format " ++ date_format ++ "."))

/-- `DateValidator.validate_not_future_year` (lines 418-427);
`datetime.now().year` is passed in as `currentYear`. -/
def DateValidator.validate_not_future_year (currentYear : Nat) (d : DateTime) :
    Except PyErr Unit :=
  if d.year > currentYear then
    .error (.httpException 400 "Invalid year. Year cannot be in the future.")
  else .ok ()

/-- `DateValidator.validate_month` (lines 429-444). -/
def DateValidator.validate_month (d : DateTime) : Except PyErr Unit :=
  if d.month < 1 || d.month > 12 then
    .error (.httpException 400
      "Invalid month. Please provide a valid month number (01-12) or name.")
  else .ok ()

/-- `DateValidator.validate` (lines 446-454). -/
def DateValidator.validate (currentYear : Nat) (date_string : String) :
    Except PyErr Unit := do
  let date_format ← DateValidator.determine_format date_string
  let date_obj ← DateValidator.validate_calendar_date date_string date_format
  DateValidator.validate_not_future_year currentYear date_obj
  DateValidator.validate_month date_obj

/-!  ## CrossFieldDateValidator (validators.py lines 548-582) -/

/-- The attribute names defined on a `CrossFieldDateValidator` instance by
its class and its base class `DateValidator` (methods from both `class`
bodies, plus the instance attributes assigned in the constructors). -/
def crossFieldDateValidatorAttributes : List String :=
  ["__init__", "validate", "validate_start_before_end",           -- CrossFieldDateValidator
   "determine_format", "validate_calendar_date",                  -- DateValidator
   "validate_not_future_year", "validate_month",
   "date_string", "supported_formats",                            -- set in DateValidator.__init__
   "start_date_string", "end_date_string"]                        -- set in CrossFieldDateValidator.__init__

/-- Python attribute lookup `self.name` on a `CrossFieldDateValidator`:
raises `AttributeError` when `name` is defined neither on the class chain
nor on the instance. -/
def crossFieldLookupAttr (name : String) : Except PyErr Unit :=
  if name ∈ crossFieldDateValidatorAttributes then .ok ()
  else .error (.attributeError name)

/-- `CrossFieldDateValidator.validate` (lines 558-572), statement by
statement: after `self.date_string = self.start_date_string` it evaluates
`self.validate_date_format()` — an attribute that does not exist
(`DateValidator` defines `determine_format`), so every call raises
`AttributeError` at this point.  Were that name resolvable, the next
statement `self.validate_calendar_date()` would raise `TypeError`, since
`validate_calendar_date(self, date_format)` requires an argument; the
unreachable continuation records that. -/
def CrossFieldDateValidator.validate (start_date end_date : String) :
    Except PyErr Unit := do
  -- self.date_string = self.start_date_string
  crossFieldLookupAttr "validate_date_format"
  -- unreachable: start_date_obj = self.validate_calendar_date()
  let _ := (start_date, end_date)
  Except.error (.typeError
    "validate_calendar_date() missing 1 required positional argument: date_format")

/-- `CrossFieldDateValidator.validate_start_before_end` (lines 574-582) —
the comparison the class was meant to perform; `datetime` ordering is
lexicographic on the fields. -/
def validate_start_before_end (s e : DateTime) : Except PyErr Unit :=
  if (s.year, s.month, s.day, s.hour, s.minute, s.second)
      ≥ (e.year, e.month, e.day, e.hour, e.minute, e.second) then
    .error (.httpException 400 "Start date must be earlier than end date.")
  else .ok ()

/-!  # Theorems for the claims -/

/-- A character list matching the body of the spec's decimal pattern
consists solely of digits, a minus sign and a dot. -/
theorem specDecimalL_chars {cap : Nat} {l : List Char} (h : SpecDecimalL cap l) :
    ∀ c ∈ l, c.isDigit = true ∨ c = '-' ∨ c = '.' := by
  obtain ⟨sign, intDs, frac, hl, hsign, _, hint, hfrac⟩ := h
  intro c hc
  rw [hl] at hc
  simp only [List.append_assoc, List.mem_append] at hc
  rcases hc with hc | hc | hc
  · rcases hsign with h | h <;> subst h <;> simp_all
  · exact Or.inl (hint c hc)
  · rcases hfrac with h | ⟨fds, hf, _, hfd, _⟩
    · subst h; simp at hc
    · subst hf
      rcases List.mem_cons.mp hc with rfl | hc
      · exact Or.inr (Or.inr rfl)
      · exact Or.inl (hfd c hc)

/-- A string matching the spec's decimal pattern consists solely of digits,
a minus sign and a dot. -/
theorem specDecimal_chars {cap : Nat} {s : String} (h : SpecDecimal cap s) :
    ∀ c ∈ s.toList, c.isDigit = true ∨ c = '-' ∨ c = '.' :=
  specDecimalL_chars h

/-!  ## Lemmas about `stripNlL`, `html.escape` and the decimal regex -/

/-- Stripping the trailing newline of a list that ends in one. -/
theorem stripNlL_concat_newline (xs : List Char) : stripNlL (xs ++ ['\n']) = xs := by
  simp [stripNlL, List.getLast?_concat]

/-- A list not ending in a newline is unchanged by `stripNlL`. -/
theorem stripNlL_of_getLast_ne {l : List Char} (h : l.getLast? ≠ some '\n') :
    stripNlL l = l := by
  unfold stripNlL
  split
  · next heq => exact absurd heq h
  · rfl

/-- A nonempty all-digit list does not end in a newline. -/
theorem getLast_ne_newline_of_digits {l : List Char} (h : ∀ c ∈ l, c.isDigit = true) :
    l.getLast? ≠ some '\n' := by
  intro hl
  have := h '\n' (List.mem_of_getLast?_eq_some hl)
  exact absurd this (by decide)

/-- Every list is its own `stripNlL`, or that plus one trailing newline. -/
theorem stripNlL_cases (l : List Char) : l = stripNlL l ∨ l = stripNlL l ++ ['\n'] := by
  unfold stripNlL
  split
  · next heq =>
      right
      have hne : l ≠ [] := by rintro rfl; simp at heq
      have h1 : l.dropLast ++ [l.getLast hne] = l := List.dropLast_concat_getLast hne
      have h2 : l.getLast hne = '\n' := by
        have := List.getLast?_eq_getLast l hne
        rw [heq] at this
        exact (Option.some.injEq _ _).mp this.symm
      rw [← h1, h2]
      simp
  · left; rfl

/-- `stripNlL` past a cons whose tail is nonempty. -/
theorem stripNlL_cons (c : Char) (l : List Char) (h : l ≠ []) :
    stripNlL (c :: l) = c :: stripNlL l := by
  have h1 : l.dropLast ++ [l.getLast h] = l := List.dropLast_concat_getLast h
  by_cases hn : l.getLast h = '\n'
  · rw [← h1, hn]
    rw [show c :: (l.dropLast ++ ['\n']) = (c :: l.dropLast) ++ ['\n'] by simp]
    rw [stripNlL_concat_newline, stripNlL_concat_newline]
  · have hsl : l.getLast? = some (l.getLast h) := List.getLast?_eq_getLast l h
    have e1 : stripNlL l = l := stripNlL_of_getLast_ne (by rw [hsl]; simp [hn])
    have e2 : stripNlL (c :: l) = c :: l := by
      refine stripNlL_of_getLast_ne ?_
      rw [List.getLast?_cons, hsl]
      simp [hn]
    rw [e1, e2]

/-- `pyEndDollar` accepts exactly the empty rest or a lone newline. -/
theorem pyEndDollar_iff {r : List Char} : pyEndDollar r = true ↔ r = [] ∨ r = ['\n'] := by
  rcases r with _ | ⟨c, _ | ⟨d, t⟩⟩ <;> simp [pyEndDollar]

/-- `getLast?` of an append with nonempty right part. -/
theorem getLast?_append_right {α : Type} {l₁ l₂ : List α} (h : l₂ ≠ []) :
    (l₁ ++ l₂).getLast? = l₂.getLast? := by
  rw [List.getLast?_append, List.getLast?_eq_getLast l₂ h]
  rfl

/-- The empty list matches no unsigned spec body. -/
theorem not_specBodyL_nil {cap : Nat} : ¬ SpecBodyL cap [] := by
  rintro ⟨intDs, frac, hl, hne, -, -⟩
  exact hne (List.append_eq_nil.mp hl.symm).1

/-- A list starting with a minus matches no unsigned spec body. -/
theorem not_specBodyL_minus {cap : Nat} {l : List Char} : ¬ SpecBodyL cap ('-' :: l) := by
  rintro ⟨intDs, frac, hl, hne, hdig, -⟩
  rcases intDs with _ | ⟨a, intDs⟩
  · exact hne rfl
  · have ha : '-' = a := by simpa using congrArg List.head? hl
    exact absurd (hdig '-' (by rw [ha]; simp)) (by decide)

/-- Forward direction of the core equivalence. -/
theorem decMatch_specBodyL {cap : Nat} {cs : List Char}
    (h : decMatchCore cap cs = true) : SpecBodyL cap (stripNlL cs) := by
  unfold decMatchCore at h
  rw [Bool.and_eq_true] at h
  obtain ⟨hne', hrest⟩ := h
  obtain ⟨t, ht⟩ : ∃ t, cs.takeWhile Char.isDigit = t := ⟨_, rfl⟩
  have hne : t ≠ [] := by rw [← ht]; simpa [List.isEmpty_iff] using hne'
  have hdig : ∀ c ∈ t, c.isDigit = true := by
    rw [← ht]; exact fun c hc => List.mem_takeWhile_imp hc
  have hcs : t ++ cs.dropWhile Char.isDigit = cs := by
    rw [← ht]; exact List.takeWhile_append_dropWhile _ _
  split at hrest
  · next rest2 heq =>
    rw [Bool.and_eq_true, Bool.and_eq_true] at hrest
    obtain ⟨⟨hfne', hflen'⟩, hdoll⟩ := hrest
    obtain ⟨f, hf⟩ : ∃ f, rest2.takeWhile Char.isDigit = f := ⟨_, rfl⟩
    have hfne : f ≠ [] := by rw [← hf]; simpa [List.isEmpty_iff] using hfne'
    have hflen : f.length ≤ cap := by rw [← hf]; simpa using hflen'
    have hfdig : ∀ c ∈ f, c.isDigit = true := by
      rw [← hf]; exact fun c hc => List.mem_takeWhile_imp hc
    have hr2 : f ++ rest2.dropWhile Char.isDigit = rest2 := by
      rw [← hf]; exact List.takeWhile_append_dropWhile _ _
    rcases pyEndDollar_iff.mp hdoll with h3 | h3
    · -- no trailing newline: cs = t ++ '.' :: f, ending in a digit of f
      have hr2' : f = rest2 := by rw [← hr2, h3, List.append_nil]
      have hcs2 : cs = t ++ '.' :: f :=
        calc cs = t ++ cs.dropWhile Char.isDigit := hcs.symm
          _ = t ++ '.' :: rest2 := by rw [heq]
          _ = t ++ '.' :: f := by rw [hr2']
      have hlast : (t ++ '.' :: f).getLast? ≠ some '\n' := by
        rw [getLast?_append_right (by simp)]
        rw [show ('.' :: f) = ['.'] ++ f from rfl, getLast?_append_right hfne]
        exact getLast_ne_newline_of_digits hfdig
      have hstrip : stripNlL cs = cs := stripNlL_of_getLast_ne (by rw [hcs2]; exact hlast)
      rw [hstrip]
      exact ⟨t, '.' :: f, hcs2, hne, hdig, Or.inr ⟨f, rfl, hfne, hfdig, hflen⟩⟩
    · -- one trailing newline after the fraction
      have hr2' : f ++ ['\n'] = rest2 := by rw [← hr2, h3]
      have hcs2 : cs = (t ++ '.' :: f) ++ ['\n'] :=
        calc cs = t ++ cs.dropWhile Char.isDigit := hcs.symm
          _ = t ++ '.' :: rest2 := by rw [heq]
          _ = t ++ '.' :: (f ++ ['\n']) := by rw [hr2']
          _ = (t ++ '.' :: f) ++ ['\n'] := by simp
      rw [hcs2, stripNlL_concat_newline]
      exact ⟨t, '.' :: f, rfl, hne, hdig, Or.inr ⟨f, rfl, hfne, hfdig, hflen⟩⟩
  · next r hnotdot =>
    rcases pyEndDollar_iff.mp hrest with h3 | h3
    · have hcs2 : cs = t := by rw [← hcs, h3, List.append_nil]
      have hstrip : stripNlL cs = cs :=
        stripNlL_of_getLast_ne (by rw [hcs2]; exact getLast_ne_newline_of_digits hdig)
      rw [hstrip, hcs2]
      exact ⟨t, [], (List.append_nil t).symm, hne, hdig, Or.inl rfl⟩
    · have hcs2 : cs = t ++ ['\n'] := by rw [← hcs, h3]
      rw [hcs2, stripNlL_concat_newline]
      exact ⟨t, [], (List.append_nil t).symm, hne, hdig, Or.inl rfl⟩

/-- Backward direction of the core equivalence, with an explicit optional
trailing newline. -/
theorem specBodyL_decMatch {cap : Nat} {l : List Char} (h : SpecBodyL cap l)
    {tail : List Char} (htl : tail = [] ∨ tail = ['\n']) :
    decMatchCore cap (l ++ tail) = true := by
  obtain ⟨intDs, frac, rfl, hne, hdig, hfrac⟩ := h
  have htail_tw : tail.takeWhile Char.isDigit = [] := by
    rcases htl with rfl | rfl <;> rfl
  have htail_dw : tail.dropWhile Char.isDigit = tail := by
    rcases htl with rfl | rfl <;> rfl
  have htail_dollar : pyEndDollar tail = true := pyEndDollar_iff.mpr htl
  have hneb : (!intDs.isEmpty) = true := by
    simpa [List.isEmpty_iff] using hne
  rcases hfrac with rfl | ⟨fds, rfl, hfne, hfdig, hflen⟩
  · -- integer only: (intDs ++ []) ++ tail = intDs ++ tail
    rw [List.append_nil]
    unfold decMatchCore
    rw [List.takeWhile_append_of_pos hdig, List.dropWhile_append_of_pos hdig,
      htail_tw, htail_dw, List.append_nil]
    rw [Bool.and_eq_true]
    refine ⟨hneb, ?_⟩
    rcases htl with rfl | rfl <;> rfl
  · -- integer, dot, fraction
    rw [show (intDs ++ '.' :: fds) ++ tail = intDs ++ '.' :: (fds ++ tail) by simp]
    unfold decMatchCore
    rw [List.takeWhile_append_of_pos hdig, List.dropWhile_append_of_pos hdig]
    rw [List.takeWhile_cons_of_neg (by decide), List.dropWhile_cons_of_neg (by decide),
      List.append_nil]
    rw [Bool.and_eq_true]
    refine ⟨hneb, ?_⟩
    split
    · next rest2 heq2 =>
      injection heq2 with h1 h2
      subst h2
      rw [List.takeWhile_append_of_pos hfdig, List.dropWhile_append_of_pos hfdig,
        htail_tw, htail_dw, List.append_nil]
      simp [List.isEmpty_iff, hfne, hflen, htail_dollar]
    · next r hnot =>
      exact absurd rfl (hnot (fds ++ tail))

/-- The unsigned decimal regex body accepts a list exactly when its
newline-stripped form matches the unsigned spec pattern. -/
theorem decMatchCore_iff (cap : Nat) (cs : List Char) :
    decMatchCore cap cs = true ↔ SpecBodyL cap (stripNlL cs) := by
  constructor
  · exact decMatch_specBodyL
  · intro h
    rcases stripNlL_cases cs with hh | hh
    · rw [hh]
      have := specBodyL_decMatch h (Or.inl rfl)
      simpa using this
    · rw [hh]
      exact specBodyL_decMatch h (Or.inr rfl)

/-- The signed spec pattern splits into an unsigned body or a minus sign
followed by one. -/
theorem specDecimalL_iff {cap : Nat} {l : List Char} :
    SpecDecimalL cap l ↔
      (SpecBodyL cap l ∨ ∃ r, l = '-' :: r ∧ SpecBodyL cap r) := by
  constructor
  · rintro ⟨sign, intDs, frac, hl, hsign, hne, hdig, hfrac⟩
    rcases hsign with rfl | rfl
    · exact Or.inl ⟨intDs, frac, by simpa using hl, hne, hdig, hfrac⟩
    · exact Or.inr ⟨intDs ++ frac, by simpa using hl, intDs, frac, rfl, hne, hdig, hfrac⟩
  · rintro (⟨intDs, frac, hl, hne, hdig, hfrac⟩ | ⟨r, rfl, intDs, frac, hl, hne, hdig, hfrac⟩)
    · exact ⟨[], intDs, frac, by simpa using hl, Or.inl rfl, hne, hdig, hfrac⟩
    · exact ⟨['-'], intDs, frac, by simp [hl], Or.inr rfl, hne, hdig, hfrac⟩

/-- `stripNlL` of a cons is empty or keeps the same head. -/
theorem stripNlL_cons_shape (c : Char) (rest : List Char) :
    stripNlL (c :: rest) = [] ∨ ∃ x, stripNlL (c :: rest) = c :: x := by
  rcases rest with _ | ⟨d, r⟩
  · by_cases hc : c = '\n'
    · subst hc
      exact Or.inl rfl
    · right
      refine ⟨[], stripNlL_of_getLast_ne ?_⟩
      simpa using hc
  · rw [stripNlL_cons c (d :: r) (by simp)]
    exact Or.inr ⟨_, rfl⟩

/-- The full decimal regex (optional minus, then body) accepts a string
exactly when its newline-stripped character list matches the spec's signed
decimal pattern. -/
theorem decimalRegexMatch_iff (cap : Nat) (s : String) :
    decimalRegexMatch cap s = true ↔ SpecDecimalL cap (stripNlL s.toList) := by
  unfold decimalRegexMatch
  split
  · next rest heq =>
    rw [heq, decMatchCore_iff, specDecimalL_iff]
    rcases rest with _ | ⟨d, rest'⟩
    · -- the sole character was the minus sign
      rw [show stripNlL ['-'] = ['-'] from rfl]
      constructor
      · intro hb
        exact absurd (show SpecBodyL cap [] by simpa using hb) not_specBodyL_nil
      · rintro (hb | ⟨r, hr, hb⟩)
        · exact absurd hb not_specBodyL_minus
        · injection hr with h1 h2
          rw [← h2] at hb
          exact absurd hb not_specBodyL_nil
    · rw [stripNlL_cons '-' (d :: rest') (by simp)]
      constructor
      · intro hb
        exact Or.inr ⟨_, rfl, hb⟩
      · rintro (hb | ⟨r, hr, hb⟩)
        · exact absurd hb not_specBodyL_minus
        · injection hr with h1 h2
          rwa [h2]
  · next hnot =>
    rw [decMatchCore_iff, specDecimalL_iff]
    constructor
    · exact Or.inl
    · rintro (hb | ⟨r, hr, hb⟩)
      · exact hb
      · exfalso
        rcases hs : s.toList with _ | ⟨c, rest⟩
        · rw [hs] at hr
          rw [show stripNlL [] = [] from rfl] at hr
          simp at hr
        · rw [hs] at hr
          rcases stripNlL_cons_shape c rest with h0 | ⟨x, h0⟩
          · rw [h0] at hr
            simp at hr
          · rw [h0] at hr
            injection hr with h1 h2
            subst h1
            exact hnot rest hs

/-!  ## `html.escape` leaves decimal matching unchanged -/

/-- A non-special character escapes to itself. -/
theorem htmlEscapeChar_eq_self {c : Char} (h : isHtmlSpecial c = false) :
    htmlEscapeChar c = [c] := by
  unfold isHtmlSpecial at h
  simp only [Bool.or_eq_false_iff, decide_eq_false_iff_not] at h
  obtain ⟨⟨⟨⟨h1, h2⟩, h3⟩, h4⟩, h5⟩ := h
  simp [htmlEscapeChar, h1, h2, h3, h4, h5]

/-- A character list without special characters is unchanged by
character-wise escaping. -/
theorem flatMap_escape_id {l : List Char} (h : ∀ c ∈ l, isHtmlSpecial c = false) :
    l.flatMap htmlEscapeChar = l := by
  induction l with
  | nil => rfl
  | cons a t ih =>
    rw [List.flatMap_cons, htmlEscapeChar_eq_self (h a (by simp)),
      ih (fun c hc => h c (by simp [hc]))]
    rfl

/-- A string without special characters is unchanged by `html.escape`. -/
theorem htmlEscape_eq_self {s : String} (h : ∀ c ∈ s.toList, isHtmlSpecial c = false) :
    htmlEscape s = s := by
  unfold htmlEscape
  rw [flatMap_escape_id h]
  cases s
  rfl

/-- Escaping a special character produces an ampersand. -/
theorem amp_mem_escapeChar {c : Char} (h : isHtmlSpecial c = true) :
    '&' ∈ htmlEscapeChar c := by
  unfold isHtmlSpecial at h
  simp only [Bool.or_eq_true, decide_eq_true_eq] at h
  rcases h with ((((h | h) | h) | h) | h) <;> subst h <;> decide

/-- A string the decimal regex accepts contains only digits, minus, dot and
newline. -/
theorem decimalRegexMatch_chars {cap : Nat} {s : String}
    (h : decimalRegexMatch cap s = true) :
    ∀ c ∈ s.toList, c.isDigit = true ∨ c = '-' ∨ c = '.' ∨ c = '\n' := by
  intro c hc
  have hspec := (decimalRegexMatch_iff cap s).mp h
  have hmem : c ∈ stripNlL s.toList ∨ c = '\n' := by
    rcases stripNlL_cases s.toList with hh | hh
    · rw [hh] at hc
      exact Or.inl hc
    · rw [hh] at hc
      rcases List.mem_append.mp hc with h1 | h1
      · exact Or.inl h1
      · exact Or.inr (by simpa using h1)
  rcases hmem with hmem | rfl
  · rcases specDecimalL_chars hspec c hmem with h1 | h1 | h1
    · exact Or.inl h1
    · exact Or.inr (Or.inl h1)
    · exact Or.inr (Or.inr (Or.inl h1))
  · exact Or.inr (Or.inr (Or.inr rfl))

/-- `html.escape` does not change whether the decimal regex accepts: a
string without special characters is unchanged by escaping, and a string
with one is rejected both raw (the special character is not allowed by the
pattern) and escaped (its escape introduces an `&`, which is not allowed
either). -/
theorem decimalRegexMatch_escape (cap : Nat) (s : String) :
    decimalRegexMatch cap (htmlEscape s) = decimalRegexMatch cap s := by
  by_cases hs : ∀ c ∈ s.toList, isHtmlSpecial c = false
  · rw [htmlEscape_eq_self hs]
  · push_neg at hs
    obtain ⟨c0, hc0, hsp⟩ := hs
    have hsp : isHtmlSpecial c0 = true := by
      cases h0 : isHtmlSpecial c0
      · exact absurd h0 hsp
      · rfl
    have hR : decimalRegexMatch cap s = false := by
      cases hh : decimalRegexMatch cap s
      · rfl
      · exfalso
        have hallow := decimalRegexMatch_chars hh c0 hc0
        unfold isHtmlSpecial at hsp
        simp only [Bool.or_eq_true, decide_eq_true_eq] at hsp
        rcases hsp with ((((h | h) | h) | h) | h) <;> subst h <;>
          simp at hallow
    have hL : decimalRegexMatch cap (htmlEscape s) = false := by
      cases hh : decimalRegexMatch cap (htmlEscape s)
      · rfl
      · exfalso
        have hamp : '&' ∈ (htmlEscape s).toList :=
          List.mem_flatMap.mpr ⟨c0, hc0, amp_mem_escapeChar hsp⟩
        have := decimalRegexMatch_chars hh '&' hamp
        simp at this
    rw [hL, hR]

/-- `DecimalValidator.validate` succeeds exactly when the regex accepts the
escaped input. -/
theorem decimalValidator_ok_iff (mdp : Option Nat) (s : String) :
    DecimalValidator.validate mdp s = .ok true ↔
      decimalRegexMatch (if optTruthy mdp then mdp.getD 0 else 10) (htmlEscape s)
        = true := by
  unfold DecimalValidator.validate
  split_ifs with h
  · simp [h]
  · simp [h]

/-- C1: the claim says `CrossFieldDateValidator(start, end).validate()`
validates both dates and returns the structured failure `RangeInverted`
for start `2024-01-01`, end `2023-01-01`.  The code instead raises an
unhandled `AttributeError`: `validate` calls `self.validate_date_format()`,
a method that exists nowhere on the class chain (`DateValidator` defines
`determine_format`), so no input ever reaches the `RangeInverted`
comparison. -/
theorem c1_crossfield_attribute_error :
    CrossFieldDateValidator.validate "2024-01-01" "2023-01-01"
      = .error (.attributeError "validate_date_format")
    ∧ CrossFieldDateValidator.validate "2024-01-01" "2023-01-01"
      ≠ .error (.httpException 400 "Start date must be earlier than end date.") := by
  decide

/-- C2: the claim says the stream position is restored to 0 on every exit
path of `FileValidator.validate`.  On the `FileTooLarge` path the raise in
`validate_file_size` happens before `file.file.seek(0)`, so the cursor is
left at the end of the stream: a 2 MiB `report_2024.txt` against a 1 MB cap
fails with the size error and leaves `pos = 2097152 ≠ 0` (while a file
within the cap does get its cursor reset). -/
theorem c2_file_cursor_not_restored :
    (FileValidator.validate ⟨[".txt"], 1⟩ ⟨"report_2024.txt", 2097152, 0⟩).1
      = .error (.httpException 422 "File size exceeds 1 MB limit.")
    ∧ (FileValidator.validate ⟨[".txt"], 1⟩ ⟨"report_2024.txt", 2097152, 0⟩).2.pos = 2097152
    ∧ ¬ (FileValidator.validate ⟨[".txt"], 1⟩ ⟨"report_2024.txt", 2097152, 0⟩).2.pos = 0
    ∧ (FileValidator.validate ⟨[".txt"], 1⟩ ⟨"report_2024.txt", 100, 0⟩).2.pos = 0 := by
  refine ⟨rfl, rfl, ?_, rfl⟩
  decide

/-- C5: the claim says a non-empty, in-bounds string without `@` fails with
the structured `BadFormat` error and never crashes.  The code unpacks
`emailid.split('@', 1)` into two names before any format check, which
raises an unhandled `ValueError` whenever the string has no `@` — here on
`"abcdef"` (length 6, within the default 5..254 bounds), for every MX
resolver. -/
theorem c5_email_no_at_crash :
    ∀ resolveMX : String → Bool,
      EmailValidator.validate resolveMX (some 5) (some 254) "abcdef"
        = .error (.valueError "not enough values to unpack (expected 2, got 1)")
      ∧ EmailValidator.validate resolveMX (some 5) (some 254) "abcdef"
        ≠ .error (.httpException 422 "Invalid email ID format.") := by
  intro r
  refine ⟨rfl, ?_⟩
  intro h
  rw [show EmailValidator.validate r (some 5) (some 254) "abcdef"
      = .error (.valueError "not enough values to unpack (expected 2, got 1)") from rfl] at h
  simp at h

/-- C6: `MinMaxLengthValidator(min_length=0, max_length=0)` treats the
zero bounds as absent — the truthiness guards `if self.min_length and …`
skip both checks — so it accepts every string and behaves identically to a
validator constructed with no bounds. -/
theorem c6_zero_bounds_no_bound (s : String) :
    MinMaxLengthValidator.validate (some 0) (some 0) s = .ok true
    ∧ MinMaxLengthValidator.validate (some 0) (some 0) s
      = MinMaxLengthValidator.validate none none s := by
  refine ⟨?_, ?_⟩ <;> simp [MinMaxLengthValidator.validate, optTruthy]

/-- C3 counterexample: the claim says `DateValidator("2024-02-30")` fails
with `InvalidCalendarDate` (not `UnrecognizedFormat`).  In fact
`determine_format` already parses with `datetime.strptime`, which rejects
the nonexistent Feb 30 for every supported format, so the validator fails
with the `UnrecognizedFormat` error ("Unable to determine the format of
the date.") and never with the `InvalidCalendarDate` one. -/
theorem c3_feb30_unrecognized_counterexample :
    DateValidator.validate 2026 "2024-02-30"
      = .error (.httpException 400 "Unable to determine the format of the date.")
    ∧ DateValidator.validate 2026 "2024-02-30"
      ≠ .error (.httpException 400
          "Invalid date or time. Ensure the input matches the format %Y-%m-%d.") := by
  decide

/-- C3 amended: `"2024-02-30"` fails with `UnrecognizedFormat` (format
determination itself rejects calendar-invalid dates), for every current
year; and `"2024-02-29"` — an existing leap-year date — validates as
`Valid` whenever the current year is at least 2024. -/
theorem c3_feb30_amended :
    (∀ currentYear, DateValidator.validate currentYear "2024-02-30"
        = .error (.httpException 400 "Unable to determine the format of the date."))
    ∧ (∀ currentYear, 2024 ≤ currentYear →
        DateValidator.validate currentYear "2024-02-29" = .ok ()) := by
  constructor
  · intro cy
    rfl
  · intro cy h
    have h1 : DateValidator.determine_format "2024-02-29" = .ok "%Y-%m-%d" := rfl
    have h2 : DateValidator.validate_calendar_date "2024-02-29" "%Y-%m-%d"
        = .ok ⟨2024, 2, 29, 0, 0, 0⟩ := rfl
    have h3 : DateValidator.validate_not_future_year cy ⟨2024, 2, 29, 0, 0, 0⟩ = .ok () := by
      simp [DateValidator.validate_not_future_year]
      omega
    simp [DateValidator.validate, h1, h2, h3, DateValidator.validate_month,
      bind, Except.bind]

/-- C3 witness: the amended theorem applied at current year 2026. -/
theorem c3_witness :
    2024 ≤ 2026 ∧ DateValidator.validate 2026 "2024-02-29" = .ok () :=
  ⟨by decide, c3_feb30_amended.2 2026 (by decide)⟩

/-- C4 counterexample: the claim says no validator returns `Valid` on
empty input, in particular `MinMaxLengthValidator` regardless of its
bounds.  With both bounds absent (their default), the empty string
sails through both falsy-guarded checks and `validate` returns `True`. -/
theorem c4_empty_minmax_valid_counterexample :
    MinMaxLengthValidator.validate none none "" = .ok true := by
  decide

/-- C4 amended: empty input never returns `Valid` for
`AlphanumericValidator`, and never for `MinMaxLengthValidator` when a
nonzero `min_length` is set; but `MinMaxLengthValidator` with
`min_length` unset or zero accepts the empty string. -/
theorem c4_empty_amended :
    (∀ m mx, m ≠ 0 → MinMaxLengthValidator.validate (some m) mx ""
        = .error (.httpException 422
            ("String must be at least " ++ toString m ++ " characters long.")))
    ∧ AlphanumericValidator.validate ""
        = .error (.httpException 422 "Textfield cannot be empty.") := by
  constructor
  · intro m mx hm
    have : htmlEscape "" = "" := rfl
    simp [MinMaxLengthValidator.validate, optTruthy, this, hm]
  · rfl

/-- C4 witness: the amended theorem applied at `min_length = 3`. -/
theorem c4_witness :
    (3 ≠ 0) ∧ MinMaxLengthValidator.validate (some 3) none ""
      = .error (.httpException 422 "String must be at least 3 characters long.") :=
  ⟨by decide, c4_empty_amended.1 3 none (by decide)⟩

/-- C8 counterexample: the claim says `DecimalValidator` accepts exactly
the strings matching an optionally-signed integer-or-decimal pattern with
a bounded fractional part.  The pattern's `$` anchor also matches just
before a trailing newline, so `"12.3\n"` — which matches no such numeral
pattern — is accepted by `DecimalValidator(max_decimal_places=2)`. -/
theorem c8_trailing_newline_counterexample :
    DecimalValidator.validate (some 2) "12.3\n" = .ok true
    ∧ ¬ SpecDecimal 2 "12.3\n" := by
  constructor
  · decide
  · intro h
    exact absurd (specDecimal_chars h '\n' (by decide)) (by decide)

/-- C8 amended: `DecimalValidator` accepts a string exactly when the
string, after discarding at most one trailing newline (the `$`-anchor
quirk), matches an optionally-minus-signed integer-or-decimal pattern
whose fractional part has between 1 and `max_decimal_places` digits (10
when the bound is unset — or zero, which is falsy); in particular
`DecimalValidator(max_decimal_places=2)` rejects `"12.345"` with
`NotADecimal` and accepts `"12.34"`. -/
theorem c8_decimal_amended :
    (∀ mdp s, DecimalValidator.validate mdp s = .ok true ↔
        SpecDecimal (if optTruthy mdp then mdp.getD 0 else 10) (stripTrailingNl s))
    ∧ DecimalValidator.validate (some 2) "12.345"
        = .error (.httpException 422 "Value must be a valid decimal number.")
    ∧ DecimalValidator.validate (some 2) "12.34" = .ok true := by
  refine ⟨?_, by decide, by decide⟩
  intro mdp s
  rw [decimalValidator_ok_iff, decimalRegexMatch_escape, decimalRegexMatch_iff]
  exact Iff.rfl

/-- C8 witness: the amended equivalence applied to the accepted input
`"12.34"`. -/
theorem c8_witness : SpecDecimal 2 (stripTrailingNl "12.34") :=
  (c8_decimal_amended.1 (some 2) "12.34").mp (by decide)

/-- The format-trying loop of `determine_format` returns the first format
of the list that `strptime` accepts, and only then. -/
theorem findFormat_first (ds : String) (L : List String) (fmt : String)
    (h : findFormat ds L = some fmt) :
    ∃ i : Nat, L[i]? = some fmt ∧ (strptime ds fmt).isSome = true
      ∧ ∀ j : Nat, j < i → ∀ g, L[j]? = some g → (strptime ds g).isSome = false := by
  induction L with
  | nil => simp [findFormat] at h
  | cons a rest ih =>
    unfold findFormat at h
    by_cases ha : (strptime ds a).isSome = true
    · rw [if_pos ha] at h
      obtain rfl : a = fmt := by simpa using h
      exact ⟨0, by simp, ha, by intro j hj; omega⟩
    · rw [if_neg ha] at h
      obtain ⟨i, hi, hs, hlt⟩ := ih h
      refine ⟨i + 1, by simpa using hi, hs, ?_⟩
      intro j hj g hg
      cases j with
      | zero =>
        obtain rfl : a = g := by simpa using hg
        simpa using ha
      | succ j => exact hlt j (by omega) g (by simpa using hg)

/-- C7: `determine_format` returns the first pattern of
`supported_formats` that parses the input, every earlier pattern failing;
the list places the ISO pattern before the day-first one and the day-first
one before the month-first one; and for the ambiguous `"01/02/2024"` the
winner is the day-first `%d/%m/%Y`. -/
theorem c7_first_format_wins :
    (∀ ds fmt, DateValidator.determine_format ds = .ok fmt →
       ∃ i : Nat, supported_formats[i]? = some fmt ∧ (strptime ds fmt).isSome = true
         ∧ ∀ j : Nat, j < i → ∀ g, supported_formats[j]? = some g
             → (strptime ds g).isSome = false)
    ∧ supported_formats.indexOf "%Y-%m-%d" < supported_formats.indexOf "%d/%m/%Y"
    ∧ supported_formats.indexOf "%d/%m/%Y" < supported_formats.indexOf "%m/%d/%Y"
    ∧ DateValidator.determine_format "01/02/2024" = .ok "%d/%m/%Y" := by
  refine ⟨?_, by decide, by decide, by decide⟩
  intro ds fmt h
  unfold DateValidator.determine_format at h
  cases hf : findFormat ds supported_formats with
  | none => rw [hf] at h; simp at h
  | some g =>
    rw [hf] at h
    obtain rfl : g = fmt := by simpa using h
    exact findFormat_first ds supported_formats g hf

/-- C7 witness: the first-match characterisation applied to
`"01/02/2024"`, whose winning format is `%d/%m/%Y`. -/
theorem c7_witness :
    ∃ i : Nat, supported_formats[i]? = some "%d/%m/%Y"
      ∧ (strptime "01/02/2024" "%d/%m/%Y").isSome = true
      ∧ ∀ j : Nat, j < i → ∀ g, supported_formats[j]? = some g
          → (strptime "01/02/2024" g).isSome = false :=
  c7_first_format_wins.1 "01/02/2024" "%d/%m/%Y" (by decide)

/-- C9: `PasswordValidator.validate` applies its five checks in the fixed
order length, digit, lowercase, uppercase, special character, raising the
error of the first failed check and ignoring the later ones; when all five
pass it returns the original password unchanged.  Hence `"abc12345"`
fails with `MissingUpper` (not `MissingSpecial`) and `"Abc123!@"` is
returned as-is. -/
theorem c9_password_fixed_order :
    (∀ p : String,
       (p.length < 8 → PasswordValidator.validate p
          = .error (.httpException 400 "Password must be at least 8 characters long."))
       ∧ (8 ≤ p.length → p.toList.any Char.isDigit = false →
          PasswordValidator.validate p
            = .error (.httpException 400 "Password must include at least one number."))
       ∧ (8 ≤ p.length → p.toList.any Char.isDigit = true →
          p.toList.any Char.isLower = false →
          PasswordValidator.validate p
            = .error (.httpException 400
                "Password must include at least one lowercase letter."))
       ∧ (8 ≤ p.length → p.toList.any Char.isDigit = true →
          p.toList.any Char.isLower = true → p.toList.any Char.isUpper = false →
          PasswordValidator.validate p
            = .error (.httpException 400
                "Password must include at least one uppercase letter."))
       ∧ (8 ≤ p.length → p.toList.any Char.isDigit = true →
          p.toList.any Char.isLower = true → p.toList.any Char.isUpper = true →
          p.toList.any (passwordSpecialChars.contains ·) = false →
          PasswordValidator.validate p
            = .error (.httpException 400
                "Password must include at least one special character."))
       ∧ (8 ≤ p.length → p.toList.any Char.isDigit = true →
          p.toList.any Char.isLower = true → p.toList.any Char.isUpper = true →
          p.toList.any (passwordSpecialChars.contains ·) = true →
          PasswordValidator.validate p = .ok p))
    ∧ (∀ p r, PasswordValidator.validate p = .ok r → r = p)
    ∧ PasswordValidator.validate "abc12345"
        = .error (.httpException 400 "Password must include at least one uppercase letter.")
    ∧ PasswordValidator.validate "Abc123!@" = .ok "Abc123!@" := by
  refine ⟨?_, ?_, by decide, by decide⟩
  · intro p
    refine ⟨?_, ?_, ?_, ?_, ?_, ?_⟩
    · intro h1
      unfold PasswordValidator.validate
      rw [if_pos h1]
    · intro h1 h2
      unfold PasswordValidator.validate
      rw [if_neg (Nat.not_lt.mpr h1), if_pos (by simp_all)]
    · intro h1 h2 h3
      unfold PasswordValidator.validate
      rw [if_neg (Nat.not_lt.mpr h1), if_neg (by simp_all), if_pos (by simp_all)]
    · intro h1 h2 h3 h4
      unfold PasswordValidator.validate
      rw [if_neg (Nat.not_lt.mpr h1), if_neg (by simp_all), if_neg (by simp_all),
        if_pos (by simp_all)]
    · intro h1 h2 h3 h4 h5
      unfold PasswordValidator.validate
      rw [if_neg (Nat.not_lt.mpr h1), if_neg (by simp_all), if_neg (by simp_all),
        if_neg (by simp_all), if_pos (by simp_all)]
    · intro h1 h2 h3 h4 h5
      unfold PasswordValidator.validate
      rw [if_neg (Nat.not_lt.mpr h1), if_neg (by simp_all), if_neg (by simp_all),
        if_neg (by simp_all), if_neg (by simp_all)]
  · intro p r h
    unfold PasswordValidator.validate at h
    split_ifs at h
    simp_all

/-- C9 witness: the fourth (uppercase) check applied to `"abc12345"`. -/
theorem c9_witness :
    8 ≤ ("abc12345" : String).length
    ∧ ("abc12345" : String).toList.any Char.isDigit = true
    ∧ ("abc12345" : String).toList.any Char.isLower = true
    ∧ ("abc12345" : String).toList.any Char.isUpper = false
    ∧ PasswordValidator.validate "abc12345"
        = .error (.httpException 400
            "Password must include at least one uppercase letter.") :=
  ⟨by decide, by decide, by decide, by decide,
    ((c9_password_fixed_order.1 "abc12345").2.2.2.1 (by decide) (by decide)
      (by decide) (by decide))⟩

/-- C10: `MinMaxLengthValidator` compares its bounds against the length of
the HTML-escaped input, not the raw input: its acceptance is equivalent to
the escaped length lying within the truthy bounds; the single character
`"<"` escapes to the four-character `"&lt;"` and fails a `max_length=3`
check even though its raw length is 1; and through the delegating
`ZipcodeValidator` (which escapes once itself and once more in the
inherited check) the nine-character `"1234\"6789"` fails the
`max_length=10` check. -/
theorem c10_escaped_length :
    (∀ mn mx s, MinMaxLengthValidator.validate mn mx s = .ok true ↔
       ((optTruthy mn = true → mn.getD 0 ≤ (htmlEscape s).length)
        ∧ (optTruthy mx = true → (htmlEscape s).length ≤ mx.getD 0)))
    ∧ (htmlEscape "<").length = 4
    ∧ ("<" : String).length = 1
    ∧ MinMaxLengthValidator.validate none (some 3) "<"
        = .error (.httpException 422 "String must be at most 3 characters long.")
    ∧ ZipcodeValidator.validate (some 5) (some 10) "1234\"6789"
        = .error (.httpException 422 "String must be at most 10 characters long.") := by
  refine ⟨?_, by decide, by decide, by decide, by decide⟩
  intro mn mx s
  unfold MinMaxLengthValidator.validate
  constructor
  · intro h
    dsimp only at h
    split_ifs at h with h1 h2
    constructor
    · intro hmn
      rcases Nat.lt_or_ge (htmlEscape s).length (mn.getD 0) with hlt | hge
      · exact absurd (by rw [Bool.and_eq_true, decide_eq_true_eq]; exact ⟨hmn, hlt⟩) h1
      · exact hge
    · intro hmx
      rcases Nat.lt_or_ge (mx.getD 0) (htmlEscape s).length with hlt | hge
      · exact absurd (by rw [Bool.and_eq_true, decide_eq_true_eq]; exact ⟨hmx, hlt⟩) h2
      · exact hge
  · rintro ⟨ha, hb⟩
    dsimp only
    split_ifs with h1 h2
    · rw [Bool.and_eq_true, decide_eq_true_eq] at h1
      exact absurd (ha h1.1) (by omega)
    · rw [Bool.and_eq_true, decide_eq_true_eq] at h2
      exact absurd (hb h2.1) (by omega)
    · rfl

/-- C10 witness: the equivalence applied to a concrete accepted input. -/
theorem c10_witness :
    MinMaxLengthValidator.validate (some 2) (some 10) "ab" = .ok true :=
  (c10_escaped_length.1 (some 2) (some 10) "ab").mpr ⟨by decide, by decide⟩

end PyVal
